import Mathlib

/-!
Verification of the temporal-to-visual mapping core of the linear terminal
clock (`src/linear_terminal_clock/bar.py`).

Embedding conventions:
* Python `datetime.datetime` instants and `datetime.timedelta` durations are
  embedded as rationals (`ℚ`) counting seconds; the source's float
  `total_seconds()` arithmetic is modelled as exact rational arithmetic.
* `spans.datetimerange(lower, upper, lower_inc = True, upper_inc = False)`
  is the half-open interval `[lower, upper)`, embedded as `DatetimeRange`
  with membership `lower ≤ t ∧ t < upper`.
* Fallible Python functions (those that can raise) return `Except String`;
  the exception messages are abbreviated to fixed strings.
* `Cycle` is the external cycle descriptor (`cycle.py` is consumed, not
  owned, by `bar.py`): fields `start`, `end_` (Lean reserves `end`),
  optional `sunset`, and `visible`.
* Terminal styling tokens (`TERM.orange`, `TERM.normal`, ...) are opaque
  strings joined by `render`; they are embedded as the inductive `Tok`, and
  `render`'s string is represented by the emitted token sequence.
* Python truthiness is made explicit at each use: an `Optional[int]` is
  truthy iff it is `some n` with `n ≠ 0`; a string is truthy iff nonempty;
  a `datetime` is always truthy.
-/

namespace LinearClock

/-- Decidable equality of `Except` results, used to evaluate the
embedding on concrete inputs. -/
instance exceptDecEq {ε α : Type} [DecidableEq ε] [DecidableEq α] :
    DecidableEq (Except ε α) := fun a b =>
  match a, b with
  | Except.error e, Except.error f =>
    if h : e = f then Decidable.isTrue (congrArg Except.error h)
    else Decidable.isFalse (fun hc => h (Except.error.inj hc))
  | Except.ok x, Except.ok y =>
    if h : x = y then Decidable.isTrue (congrArg Except.ok h)
    else Decidable.isFalse (fun hc => h (Except.ok.inj hc))
  | Except.error _, Except.ok _ => Decidable.isFalse (fun hc => Except.noConfusion hc)
  | Except.ok _, Except.error _ => Decidable.isFalse (fun hc => Except.noConfusion hc)

/-- The external cycle descriptor consumed by the bar module: start and end
instants, an optional sunset instant, and the polar-edge-case visibility
flag. -/
structure Cycle where
  start : ℚ
  end_ : ℚ
  sunset : Option ℚ
  visible : Bool
  deriving DecidableEq, Repr

/-- The range type `spans.datetimerange` with `lower_inc = True`, `upper_inc = False`:
the half-open interval `[lower, upper)`. -/
structure DatetimeRange where
  lower : ℚ
  upper : ℚ
  deriving DecidableEq, Repr

/-- Membership test `dt in slot` for a lower-inclusive, upper-exclusive
range. -/
def DatetimeRange.containsQ (r : DatetimeRange) (t : ℚ) : Bool :=
  decide (r.lower ≤ t) && decide (t < r.upper)

/-- The `Bar` dataclass: the datetime meaning of each character of the bar. -/
structure Bar where
  cycle : Cycle
  slots : List DatetimeRange
  slot_duration : ℚ
  deriving DecidableEq, Repr

/-- The builder `bar_from_cycle_and_length`.  The Python body computes
`seconds_per_slot = (cycle.end - cycle.start).total_seconds() * (1.0 / bar_length)`
and builds one slot per `i in range(bar_length)`.  `bar_length = 0` raises
`ZeroDivisionError` at `1.0 / bar_length`; a negative `bar_length` makes
`range(bar_length)` empty, so the slot tuple is empty. -/
def bar_from_cycle_and_length (cycle : Cycle) (bar_length : ℤ) : Except String Bar :=
  if bar_length = 0 then Except.error ("ZeroDivisionError: float division by zero")
  else
    let seconds_per_bar : ℚ := cycle.end_ - cycle.start
    let bars_per_slot : ℚ := 1 / (bar_length : ℚ)
    let seconds_per_slot : ℚ := seconds_per_bar * bars_per_slot
    Except.ok
      { cycle := cycle
        slots := (List.range bar_length.toNat).map (fun (i : ℕ) =>
          { lower := cycle.start + (i : ℚ) * seconds_per_slot
            upper := cycle.start + ((i : ℚ) + 1) * seconds_per_slot })
        slot_duration := seconds_per_slot }

/-- The `Phase` enum. -/
inductive Phase where
  | day
  | night
  | twilight
  deriving DecidableEq, Repr, BEq

/-- The styling tokens and characters emitted by `gen_bar_chars`: the six
`TERM` color codes used, the reset code `TERM.normal`, the fill glyphs
`CHAR_FULL` / `CHAR_EMPTY`, and label text characters. -/
inductive Tok where
  | black_on_orange
  | orange
  | black_on_purple
  | purple
  | black_on_blue
  | blue
  | normal
  | charFull
  | charEmpty
  | text (c : Char)
  deriving DecidableEq, Repr

/-- Python truthiness of an `Optional[int]`: `None` and `0` are falsy. -/
def optTruthy : Option ℕ → Bool
  | none => false
  | some n => decide (n ≠ 0)

/-- The query `bar_offset_from_bar_and_datetime`: the end-of-cycle special case, then
a first-match scan of the slots, then the `ValueError`. -/
def bar_offset_from_bar_and_datetime (bar : Bar) (dt : ℚ) : Except String ℕ :=
  if dt = bar.cycle.end_ then Except.ok bar.slots.length
  else
    match bar.slots.findIdx? (fun slot => slot.containsQ dt) with
    | some i => Except.ok i
    | none => Except.error ("ValueError: to compute a BarOffset the datetime must be in one of the slots of the Bar or equal to the end of the Cycle")

/-- The time-label start offset computed in `gen_bar_chars`:
`0` when `dt_offset < len(time_label_text)`, else
`dt_offset - len(time_label_text) + 1`. -/
def labelStart (dt_offset : ℕ) (len : ℕ) : ℕ :=
  if dt_offset < len then 0 else dt_offset - len + 1

/-- The per-slot phase choice of `gen_bar_chars`, including the Python
truthiness test `elif sunset_offset:` (false for `None` and for offset `0`)
and the final `raise ValueError("Couldn't choose a phase...")` branch. -/
def slotPhase (sunset_offset : Option ℕ) (visible : Bool) (slot_offset : ℕ) :
    Except String Phase :=
  if slot_offset = 0 then Except.ok Phase.twilight
  else if optTruthy sunset_offset then
    let so := sunset_offset.getD 0
    if slot_offset < so then Except.ok Phase.day
    else if slot_offset = so then Except.ok Phase.twilight
    else Except.ok Phase.night
  else if !optTruthy sunset_offset then
    if visible then Except.ok Phase.day else Except.ok Phase.night
  else Except.error ("ValueError: could not choose a phase")

/-- The per-slot color choice of `gen_bar_chars`: the twelve-branch
`if/elif` chain over `(phase, text_char, has_passed)` with the final
`raise ValueError("Couldn't choose a color...")` branch.  A `text_char`,
when present, is a one-character string and hence always truthy. -/
def slotColor (phase : Phase) (text_char : Option Char) (has_passed : Bool) :
    Except String Tok :=
  if phase == Phase.day && text_char.isSome && has_passed then Except.ok Tok.black_on_orange
  else if phase == Phase.day && text_char.isSome && !has_passed then Except.ok Tok.orange
  else if phase == Phase.day && !text_char.isSome && has_passed then Except.ok Tok.orange
  else if phase == Phase.day && !text_char.isSome && !has_passed then Except.ok Tok.orange
  else if phase == Phase.twilight && text_char.isSome && has_passed then Except.ok Tok.black_on_purple
  else if phase == Phase.twilight && text_char.isSome && !has_passed then Except.ok Tok.purple
  else if phase == Phase.twilight && !text_char.isSome && has_passed then Except.ok Tok.purple
  else if phase == Phase.twilight && !text_char.isSome && !has_passed then Except.ok Tok.purple
  else if phase == Phase.night && text_char.isSome && has_passed then Except.ok Tok.black_on_blue
  else if phase == Phase.night && text_char.isSome && !has_passed then Except.ok Tok.blue
  else if phase == Phase.night && !text_char.isSome && has_passed then Except.ok Tok.blue
  else if phase == Phase.night && !text_char.isSome && !has_passed then Except.ok Tok.blue
  else Except.error ("ValueError: could not choose a color")

/-- The per-slot `text_char` computation of `gen_bar_chars`:
`time_label and (0 <= (i := slot_offset - time_label[1]) < len(time_label[0]))`,
with the Python integer subtraction made explicit over `ℤ`. -/
def slotTextChar (time_label : Option (List Char × ℕ)) (slot_offset : ℕ) : Option Char :=
  match time_label with
  | some (tl, start) =>
    let i : ℤ := (slot_offset : ℤ) - (start : ℤ)
    if 0 ≤ i ∧ i < (tl.length : ℤ) then some (tl.getD i.toNat ' ') else none
  | none => none

/-- The tokens yielded for one slot: the color code, then the label
character or the fill/empty glyph, then — after a label character only —
the `TERM.normal` reset. -/
def slotToks (color : Tok) (text_char : Option Char) (has_passed : Bool) : List Tok :=
  match text_char with
  | some c => [color, Tok.text c, Tok.normal]
  | none => [color, if has_passed then Tok.charFull else Tok.charEmpty]

/-- The sunset-offset computation performed at the top of
`gen_bar_chars`: `bar_offset_from_bar_and_datetime(bar, bar.cycle.sunset)
if bar.cycle.sunset else None` (a `datetime` is always truthy), with the
offset's `ValueError` propagating. -/
def sunsetOffsetE (bar : Bar) : Except String (Option ℕ) :=
  match bar.cycle.sunset with
  | some s => Except.map some (bar_offset_from_bar_and_datetime bar s)
  | none => pure none

/-- The body of the per-slot loop of `gen_bar_chars`: choose the phase,
the optional label character and the elapsed flag, choose the color, and
yield the slot's tokens. -/
def slotBody (sunset_offset : Option ℕ) (visible : Bool)
    (time_label : Option (List Char × ℕ)) (dt_offset : ℕ) (slot_offset : ℕ) :
    Except String (List Tok) := do
  let phase ← slotPhase sunset_offset visible slot_offset
  let text_char := slotTextChar time_label slot_offset
  let has_passed : Bool := decide (dt_offset ≥ slot_offset)
  let color ← slotColor phase text_char has_passed
  pure (slotToks color text_char has_passed)

/-- The generator `gen_bar_chars`: computes the sunset offset (propagating its
`ValueError` when the sunset lies outside the bar), resolves the optional
time label (a Python empty string is falsy, so it yields no label), and
emits the per-slot token runs in slot order. -/
def gen_bar_chars (bar : Bar) (dt_offset : ℕ) (time_label_text : Option String) :
    Except String (List Tok) := do
  let sunset_offset ← sunsetOffsetE bar
  let time_label : Option (List Char × ℕ) :=
    match time_label_text with
    | some t =>
      if t.length ≠ 0 then some (t.toList, labelStart dt_offset t.length) else none
    | none => none
  let slotLists ← (List.range bar.slots.length).mapM
    (slotBody sunset_offset bar.cycle.visible time_label dt_offset)
  pure slotLists.flatten

/-- The operation `render`: joins the yielded tokens (the join itself is represented by
the token list, the styling codes being opaque strings). -/
def render (bar : Bar) (dt_offset : ℕ) (time_label_text : Option String) :
    Except String (List Tok) :=
  gen_bar_chars bar dt_offset time_label_text

/-- Python `int()` applied to a (here: rational) number: truncation toward
zero. -/
def pyInt (q : ℚ) : ℤ :=
  if 0 ≤ q then ⌊q⌋ else -⌊-q⌋

/-- The query `bar_offset_from_bar_and_percent`:
`points_per_char = 100 * (1.0 / len(bar.slots))`, `chars = percentage /
points_per_char`, result `int(chars + 0.5)`.  (For an empty slot list the
Python raises `ZeroDivisionError`; every theorem below assumes at least one
slot.) -/
def bar_offset_from_bar_and_percent (bar : Bar) (percentage : ℚ) : ℤ :=
  let points_per_bar : ℚ := 100
  let bars_per_char : ℚ := 1 / (bar.slots.length : ℚ)
  let points_per_char : ℚ := points_per_bar * bars_per_char
  let chars : ℚ := percentage / points_per_char
  pyInt (chars + 1 / 2)

/-- The candidate step list iterated by `scale_from_bar`, in source order. -/
def scaleSteps : List ℕ := [10, 20, 25, 33, 50]

/-- The markers generated by `range(0, 100 + 1, step)`: the multiples of
`step` not exceeding `100` (for positive `step`). -/
def scaleMarkers (step : ℕ) : List ℕ :=
  (List.range (100 / step + 1)).map (fun k => k * step)

/-- One marker's character list inside `scale_from_bar`:
`([None] * offset) + list(str(marker))` — `offset` leading blanks
(`none`s) followed by the marker's decimal digits. -/
def markerRow (offset : ℕ) (marker : ℕ) : List (Option Char) :=
  List.replicate offset none ++ (Nat.repr marker).toList.map some

/-- The combination `itertools.zip_longest(*rows)` followed by `starmap(or_N_arity, ...)`
and `c or ' '`: position `j` of the result is the first `some` character
among the rows at position `j` (shorter rows padded with `none`), blanks
standing in for all-`none` columns.  Every character produced by
`str(marker)` is a nonempty string and hence truthy, so Python's `or`
chain selects exactly the first non-`None` entry. -/
def collapseRows (rows : List (List (Option Char))) : List Char :=
  let len := (rows.map List.length).foldr max 0
  (List.range len).map (fun j =>
    ((rows.map (fun r => r.getD j none)).foldl
      (fun a b => match a with | some x => some x | none => b) none).getD ' ')

/-- The candidate scale string built by `scale_from_bar` for one step. -/
def candidate_scale (bar : Bar) (step : ℕ) : String :=
  String.mk (collapseRows ((scaleMarkers step).map (fun (marker : ℕ) =>
    markerRow (bar_offset_from_bar_and_percent bar (marker : ℚ)).toNat marker)))

/-- Python `str.split()` (no separator): split on whitespace runs,
discarding empty fragments.  The candidate scale only contains digits and
blanks. -/
def pySplit (s : String) : List String :=
  (s.split (fun c => c = ' ')).filter (fun t => t ≠ "")

/-- The search `scale_from_bar`: for each candidate step in order, build the candidate
scale and return it as soon as splitting it on whitespace recovers as many
tokens as markers were generated; `None` when no step qualifies. -/
def scale_from_bar (bar : Bar) : Option String :=
  scaleSteps.findSome? (fun step =>
    let candidate := candidate_scale bar step
    let separated_markers := pySplit candidate
    if separated_markers.length = (scaleMarkers step).length then some candidate
    else none)

/-- The legibility test applied by `scale_from_bar` to one candidate step:
the whitespace-split token count equals the generated marker count. -/
def legible (bar : Bar) (step : ℕ) : Bool :=
  decide ((pySplit (candidate_scale bar step)).length = (scaleMarkers step).length)

/-! ### Spec-side definition used to settle the phase-classification claim -/

/-- The per-slot phase classification in the *amended* wording of the
phase claim: slot `0` is twilight; with a sunset whose bar offset is
nonzero the day/twilight/night comparison against that offset applies;
otherwise (no sunset, or a sunset whose bar offset is `0`, which Python's
`elif sunset_offset:` treats like no sunset) the `visible` flag decides. -/
def amendedPhaseSpec (sunset_offset : Option ℕ) (visible : Bool) (slot_offset : ℕ) : Phase :=
  if slot_offset = 0 then Phase.twilight
  else
    match sunset_offset with
    | some so =>
      if so = 0 then (if visible then Phase.day else Phase.night)
      else if slot_offset < so then Phase.day
      else if slot_offset = so then Phase.twilight
      else Phase.night
    | none => if visible then Phase.day else Phase.night

/-- The inverted (dark-on-phase-background) style of each phase, used when
a label character sits on an elapsed slot. -/
def invertedStyle : Phase → Tok
  | Phase.day => Tok.black_on_orange
  | Phase.twilight => Tok.black_on_purple
  | Phase.night => Tok.black_on_blue

/-- The plain phase-colored style of each phase. -/
def plainStyle : Phase → Tok
  | Phase.day => Tok.orange
  | Phase.twilight => Tok.purple
  | Phase.night => Tok.blue

/-! ### Concrete fixtures used by witnesses and counterexamples -/

/-- A 10-second cycle with no sunset. -/
def testCycle10 : Cycle := ⟨0, 10, none, true⟩

/-- The 10-slot bar of `testCycle10`: slot `i` is `[i, i+1)`. -/
def testBar10 : Bar :=
  (bar_from_cycle_and_length testCycle10 10).toOption.getD ⟨testCycle10, [], 0⟩

/-- A 100-second cycle with no sunset. -/
def testCycle100 : Cycle := ⟨0, 100, none, true⟩

/-- The 100-slot bar of `testCycle100`. -/
def testBar100 : Bar :=
  (bar_from_cycle_and_length testCycle100 100).toOption.getD ⟨testCycle100, [], 0⟩

/-- A 10-second cycle whose sunset lies inside slot 0 of a 10-slot bar, so
the sunset's bar offset is `0` — falsy for Python's `elif sunset_offset:`
test. -/
def sunsetCycle : Cycle := ⟨0, 10, some (1 / 2), true⟩

/-- The 10-slot bar of `sunsetCycle`. -/
def sunsetBar : Bar :=
  (bar_from_cycle_and_length sunsetCycle 10).toOption.getD ⟨sunsetCycle, [], 0⟩

/-! ### Helper lemmas -/

/-- For a nonzero length, `bar_from_cycle_and_length` succeeds with the
slots written out. -/
lemma build_ok (c : Cycle) (L : ℤ) (hL : L ≠ 0) :
    bar_from_cycle_and_length c L = Except.ok
      { cycle := c
        slots := (List.range L.toNat).map (fun (i : ℕ) =>
          { lower := c.start + (i : ℚ) * ((c.end_ - c.start) * (1 / (L : ℚ)))
            upper := c.start + ((i : ℚ) + 1) * ((c.end_ - c.start) * (1 / (L : ℚ))) })
        slot_duration := (c.end_ - c.start) * (1 / (L : ℚ)) } := by
  simp [bar_from_cycle_and_length, hL]

/-- A fold of `max` over a list is bounded by any bound on its members. -/
lemma foldr_max_le {B : ℕ} : ∀ {l : List ℕ}, (∀ x ∈ l, x ≤ B) → l.foldr max 0 ≤ B
  | [], _ => Nat.zero_le B
  | x :: l, h => by
    simp only [List.foldr_cons]
    exact max_le (h x (List.mem_cons_self x l))
      (foldr_max_le (fun y hy => h y (List.mem_cons_of_mem x hy)))

/-- A `findSome?` only depends on the pointwise behavior of its function. -/
lemma findSome?_congr_fn {α β : Type} (F G : α → Option β) :
    ∀ (l : List α), (∀ x ∈ l, F x = G x) → l.findSome? F = l.findSome? G
  | [], _ => rfl
  | x :: l, h => by
    rw [List.findSome?_cons, List.findSome?_cons, h x (List.mem_cons_self x l)]
    cases G x with
    | some b => rfl
    | none => exact findSome?_congr_fn F G l (fun y hy => h y (List.mem_cons_of_mem x hy))

/-- A `findSome?` of a guarded function is the `find?` of the guard mapped
through the payload. -/
lemma findSome?_guard {α β : Type} (g : α → Bool) (f : α → β) :
    ∀ (l : List α),
      l.findSome? (fun x => if g x then some (f x) else none) = (l.find? g).map f
  | [] => rfl
  | x :: l => by
    rw [List.findSome?_cons, List.find?_cons]
    cases hg : g x with
    | true => simp [hg]
    | false => simp only [hg, if_neg Bool.false_ne_true]; exact findSome?_guard g f l

/-- Successful `mapM` over `Except` only produces values the function
returned on members of the input list. -/
lemma mapM_ok_mem {α β : Type} (f : α → Except String β) :
    ∀ (xs : List α) (ys : List β), xs.mapM f = Except.ok ys →
      ∀ y ∈ ys, ∃ x ∈ xs, f x = Except.ok y := by
  intro xs
  induction xs with
  | nil => intro ys h y hy; rw [List.mapM_nil] at h; cases h; cases hy
  | cons x xs ih =>
    intro ys h y hy
    rw [List.mapM_cons] at h
    cases hx : f x with
    | error e => rw [hx] at h; cases h
    | ok b =>
      rw [hx] at h
      cases hxs : xs.mapM f with
      | error e =>
        rw [hxs] at h
        cases h
      | ok bs =>
        rw [hxs] at h
        cases h
        cases hy with
        | head => exact ⟨x, List.mem_cons_self x xs, hx⟩
        | tail _ hmem =>
          obtain ⟨x', hx', hfx'⟩ := ih bs hxs y hmem
          exact ⟨x', List.mem_cons_of_mem x hx', hfx'⟩

/-! ### C1 — build partitions the cycle exactly -/

/-- C1: for every cycle with `end > start` and every integer length `≥ 1`,
`build(cycle, length)` returns a `Bar` with exactly `length` slots, slot
`i` being the half-open range
`[start + i·slot_duration, start + (i+1)·slot_duration)` with
`slot_duration = (end − start) / length`; consecutive slots are contiguous
(no gaps or overlaps), the first lower bound is `cycle.start` and the last
upper bound is `cycle.end`. -/
theorem C1_build_partitions (c : Cycle) (L : ℤ) (hL : 1 ≤ L) (he : c.start < c.end_) :
    ∃ bar, bar_from_cycle_and_length c L = Except.ok bar ∧
      bar.slots.length = L.toNat ∧
      (∀ i : ℕ, i < L.toNat →
        bar.slots[i]? = some
          { lower := c.start + (i : ℚ) * ((c.end_ - c.start) / (L : ℚ))
            upper := c.start + ((i : ℚ) + 1) * ((c.end_ - c.start) / (L : ℚ)) }) ∧
      (∀ i : ℕ, i + 1 < L.toNat →
        bar.slots[i + 1]?.map DatetimeRange.lower = bar.slots[i]?.map DatetimeRange.upper) ∧
      bar.slots[0]?.map DatetimeRange.lower = some c.start ∧
      bar.slots[L.toNat - 1]?.map DatetimeRange.upper = some c.end_ := by
  have hL0 : L ≠ 0 := by omega
  have hLQ : (L : ℚ) ≠ 0 := Int.cast_ne_zero.mpr hL0
  have hlen : 1 ≤ L.toNat := by omega
  refine ⟨_, build_ok c L hL0, ?_, ?_, ?_, ?_, ?_⟩
  · show ((List.range L.toNat).map _).length = L.toNat
    rw [List.length_map, List.length_range]
  · intro i hi
    show ((List.range L.toNat).map _)[i]? = _
    rw [List.getElem?_map, List.getElem?_range hi, Option.map_some']
    simp only [mul_one_div]
  · intro i hi
    have hi' : i < L.toNat := by omega
    show (((List.range L.toNat).map _)[i + 1]?.map DatetimeRange.lower) =
      (((List.range L.toNat).map _)[i]?.map DatetimeRange.upper)
    rw [List.getElem?_map, List.getElem?_map, List.getElem?_range hi,
      List.getElem?_range hi', Option.map_some', Option.map_some',
      Option.map_some', Option.map_some']
    congr 1
    push_cast
    ring
  · have h0 : 0 < L.toNat := by omega
    show (((List.range L.toNat).map _)[0]?.map DatetimeRange.lower) = some c.start
    rw [List.getElem?_map, List.getElem?_range h0, Option.map_some', Option.map_some']
    congr 1
    push_cast
    ring
  · have hlast : L.toNat - 1 < L.toNat := by omega
    show (((List.range L.toNat).map _)[L.toNat - 1]?.map DatetimeRange.upper) = some c.end_
    rw [List.getElem?_map, List.getElem?_range hlast, Option.map_some', Option.map_some']
    congr 1
    have h2 : ((L.toNat - 1 : ℕ) : ℚ) = (L : ℚ) - 1 := by
      have h1 : ((L.toNat - 1 : ℕ) : ℤ) = L - 1 := by omega
      exact_mod_cast h1
    rw [h2]
    field_simp

/-- Witness for C1 at the concrete cycle `[0, 10)` and length `10`. -/
theorem C1_build_partitions_witness :
    ∃ bar, bar_from_cycle_and_length testCycle10 10 = Except.ok bar ∧
      bar.slots.length = (10 : ℤ).toNat ∧
      (∀ i : ℕ, i < (10 : ℤ).toNat →
        bar.slots[i]? = some
          { lower := testCycle10.start +
              (i : ℚ) * ((testCycle10.end_ - testCycle10.start) / ((10 : ℤ) : ℚ))
            upper := testCycle10.start +
              ((i : ℚ) + 1) * ((testCycle10.end_ - testCycle10.start) / ((10 : ℤ) : ℚ)) }) ∧
      (∀ i : ℕ, i + 1 < (10 : ℤ).toNat →
        bar.slots[i + 1]?.map DatetimeRange.lower = bar.slots[i]?.map DatetimeRange.upper) ∧
      bar.slots[0]?.map DatetimeRange.lower = some testCycle10.start ∧
      bar.slots[(10 : ℤ).toNat - 1]?.map DatetimeRange.upper = some testCycle10.end_ :=
  C1_build_partitions testCycle10 10 (by decide) (by with_unfolding_all decide)

/-! ### C5 — behavior of build on non-positive lengths -/

/-- Counterexample to C5 as stated: at length `-1` the builder does not
reject the call — it silently returns a `Bar` whose slot sequence is empty
(and whose slot duration is negative). -/
theorem C5_counterexample :
    bar_from_cycle_and_length testCycle10 (-1) =
      Except.ok { cycle := testCycle10, slots := [], slot_duration := -10 } := by
  with_unfolding_all decide

/-- C5 as amended: for length `0` the builder fails (with the division-by-
zero error, not a deliberate invalid-argument rejection), while for every
negative length it silently returns a `Bar` with an empty slot sequence. -/
theorem C5_nonpositive_length (c : Cycle) (L : ℤ) (hL : L ≤ 0) :
    (L = 0 → bar_from_cycle_and_length c L =
      Except.error ("ZeroDivisionError: float division by zero"))
  ∧ (L < 0 → ∃ bar, bar_from_cycle_and_length c L = Except.ok bar ∧ bar.slots = []) := by
  constructor
  · intro h0
    simp [bar_from_cycle_and_length, h0]
  · intro hneg
    have hL0 : L ≠ 0 := by omega
    have htn : L.toNat = 0 := by omega
    refine ⟨_, build_ok c L hL0, ?_⟩
    show ((List.range L.toNat).map _) = []
    rw [htn]
    rfl

/-- Witness for C5 (amended) at length `-1`. -/
theorem C5_nonpositive_length_witness :
    ((-1 : ℤ) ≤ 0) ∧
    (((-1 : ℤ) = 0 → bar_from_cycle_and_length testCycle10 (-1) =
        Except.error ("ZeroDivisionError: float division by zero"))
     ∧ ((-1 : ℤ) < 0 → ∃ bar,
          bar_from_cycle_and_length testCycle10 (-1) = Except.ok bar ∧ bar.slots = [])) :=
  ⟨by decide, C5_nonpositive_length testCycle10 (-1) (by decide)⟩

/-! ### C2 — offset from instant -/

/-- C2: on a bar built from `(cycle, length)` with `end > start` and
`length ≥ 1`, `offsetFromInstant` returns `length` at `instant =
cycle.end`; returns `i` for an instant whose first containing slot is
`i`; and fails with the domain error exactly when the instant lies in no
slot and differs from `cycle.end`. -/
theorem C2_offset_from_instant (c : Cycle) (L : ℤ) (bar : Bar) (dt : ℚ)
    (hL : 1 ≤ L) (he : c.start < c.end_)
    (hb : bar_from_cycle_and_length c L = Except.ok bar) :
    (dt = c.end_ → bar_offset_from_bar_and_datetime bar dt = Except.ok bar.slots.length)
  ∧ (∀ i : ℕ, ∀ hi : i < bar.slots.length,
      (bar.slots.get ⟨i, hi⟩).containsQ dt = true →
      (∀ j : ℕ, ∀ hj : j < i, (bar.slots.get ⟨j, Nat.lt_trans hj hi⟩).containsQ dt = false) →
      bar_offset_from_bar_and_datetime bar dt = Except.ok i)
  ∧ ((∀ i : ℕ, ∀ hi : i < bar.slots.length,
        (bar.slots.get ⟨i, hi⟩).containsQ dt = false) → dt ≠ c.end_ →
      ∃ msg, bar_offset_from_bar_and_datetime bar dt = Except.error msg) := by
  have hL0 : L ≠ 0 := by omega
  rw [build_ok c L hL0] at hb
  cases hb
  have hLQpos : (0 : ℚ) < (L : ℚ) := by exact_mod_cast hL.trans_lt' (by norm_num)
  have hd : (0 : ℚ) < (c.end_ - c.start) * (1 / (L : ℚ)) :=
    mul_pos (by linarith) (by positivity)
  have hnL : ((L.toNat : ℕ) : ℚ) = (L : ℚ) := by
    exact_mod_cast Int.toNat_of_nonneg (by omega : (0 : ℤ) ≤ L)
  refine ⟨?_, ?_, ?_⟩
  · intro hdt
    simp only [bar_offset_from_bar_and_datetime]
    rw [if_pos hdt]
  · intro i hi hcont hfirst
    have hi' : i < L.toNat := by simpa using hi
    simp only [List.get_eq_getElem, List.getElem_map, List.getElem_range] at hcont hfirst
    have hupper : dt < c.start + ((i : ℚ) + 1) * ((c.end_ - c.start) * (1 / (L : ℚ))) := by
      have h2 := (Bool.and_eq_true _ _).mp hcont
      exact of_decide_eq_true h2.2
    have hne : dt ≠ c.end_ := by
      have hle : ((i : ℚ) + 1) * ((c.end_ - c.start) * (1 / (L : ℚ)))
          ≤ (L : ℚ) * ((c.end_ - c.start) * (1 / (L : ℚ))) := by
        apply mul_le_mul_of_nonneg_right _ (le_of_lt hd)
        rw [← hnL]
        have h1 : ((i + 1 : ℕ) : ℚ) ≤ ((L.toNat : ℕ) : ℚ) := by
          exact_mod_cast Nat.succ_le_of_lt hi'
        push_cast at h1
        linarith
      have hLd : (L : ℚ) * ((c.end_ - c.start) * (1 / (L : ℚ))) = c.end_ - c.start := by
        field_simp
      intro hcontra
      rw [hcontra] at hupper
      rw [hLd] at hle
      linarith
    simp only [bar_offset_from_bar_and_datetime]
    rw [if_neg hne]
    have hfind : ((List.range L.toNat).map (fun (i : ℕ) =>
        (⟨c.start + (i : ℚ) * ((c.end_ - c.start) * (1 / (L : ℚ))),
          c.start + ((i : ℚ) + 1) * ((c.end_ - c.start) * (1 / (L : ℚ)))⟩ : DatetimeRange))).findIdx?
        (fun slot => slot.containsQ dt) = some i := by
      apply List.findIdx?_eq_some_iff_getElem.mpr
      refine ⟨by simpa using hi', ?_, ?_⟩
      · simp only [List.getElem_map, List.getElem_range]
        exact hcont
      · intro j hj
        simp only [List.getElem_map, List.getElem_range]
        rw [hfirst j hj]
        exact Bool.false_ne_true
    rw [hfind]
  · intro hnone hne
    simp only [List.get_eq_getElem, List.getElem_map, List.getElem_range] at hnone
    simp only [List.length_map, List.length_range] at hnone
    simp only [bar_offset_from_bar_and_datetime]
    rw [if_neg hne]
    have hfind : ((List.range L.toNat).map (fun (i : ℕ) =>
        (⟨c.start + (i : ℚ) * ((c.end_ - c.start) * (1 / (L : ℚ))),
          c.start + ((i : ℚ) + 1) * ((c.end_ - c.start) * (1 / (L : ℚ)))⟩ : DatetimeRange))).findIdx?
        (fun slot => slot.containsQ dt) = none := by
      apply List.findIdx?_eq_none_iff.mpr
      intro x hx
      obtain ⟨k, hk, hkx⟩ := List.getElem_of_mem hx
      rw [← hkx]
      simp only [List.length_map, List.length_range] at hk
      simp only [List.getElem_map, List.getElem_range]
      exact hnone k hk
    rw [hfind]
    exact ⟨_, rfl⟩

/-- Witness for C2: on the 10-slot bar of `[0, 10)`, the instant `7` lies
in slot `7` (and in no earlier slot), and `offsetFromInstant` returns `7`. -/
theorem C2_offset_from_instant_witness :
    bar_from_cycle_and_length testCycle10 10 = Except.ok testBar10 ∧
    bar_offset_from_bar_and_datetime testBar10 7 = Except.ok 7 := by
  have hb : bar_from_cycle_and_length testCycle10 10 = Except.ok testBar10 := by
    with_unfolding_all decide
  have hi : (7 : ℕ) < testBar10.slots.length := by with_unfolding_all decide
  have hcont : (testBar10.slots.get ⟨7, hi⟩).containsQ 7 = true := by
    with_unfolding_all rfl
  have hfirst : ∀ (j : ℕ) (hj : j < 7),
      (testBar10.slots.get ⟨j, Nat.lt_trans hj hi⟩).containsQ 7 = false := by
    intro j hj
    interval_cases j <;> with_unfolding_all rfl
  exact ⟨hb, (C2_offset_from_instant testCycle10 10 testBar10 7 (by decide)
    (by with_unfolding_all decide) hb).2.1 7 hi hcont hfirst⟩

/-! ### C3 / C8 — phase classification and style table -/

/-- The phase choice of `gen_bar_chars` never reaches its error branch and
agrees with the amended classification (sunset offset `0` is falsy for
`elif sunset_offset:` and falls through to the visibility flag). -/
lemma slotPhase_eq_amended (so : Option ℕ) (v : Bool) (i : ℕ) :
    slotPhase so v i = Except.ok (amendedPhaseSpec so v i) := by
  cases so with
  | none =>
    by_cases hi : i = 0 <;> cases v <;>
      simp [slotPhase, amendedPhaseSpec, optTruthy, hi]
  | some s =>
    by_cases hs : s = 0 <;> by_cases hi : i = 0 <;> cases v <;>
      by_cases h1 : i < s <;> by_cases h2 : i = s <;>
        simp [slotPhase, amendedPhaseSpec, optTruthy, hs, hi, h1, h2]

/-- Counterexample to C3 as stated: `sunsetCycle` has a sunset whose bar
offset on its 10-slot bar is `0`; for slot `6 > 0` the claim then demands
phase `night`, but the code (whose `elif sunset_offset:` treats offset `0`
as falsy) classifies it as `day` (the cycle is `visible`), and the emitted
color token for slot 6 is the plain day style, not the night style. -/
theorem C3_counterexample :
    sunsetCycle.sunset = some (1 / 2) ∧
    bar_offset_from_bar_and_datetime sunsetBar (1 / 2) = Except.ok 0 ∧
    (6 : ℕ) > 0 ∧
    slotPhase (some 0) sunsetBar.cycle.visible 6 = Except.ok Phase.day ∧
    Phase.day ≠ Phase.night ∧
    (gen_bar_chars sunsetBar 0 none).map (fun l => l.getD 12 Tok.normal) =
      Except.ok (plainStyle Phase.day) ∧
    plainStyle Phase.day ≠ plainStyle Phase.night := by
  refine ⟨rfl, by with_unfolding_all decide, by decide,
    by with_unfolding_all decide, by decide, by with_unfolding_all decide, by decide⟩

/-- C3 as amended: slot `0` is twilight; when the cycle's sunset has a
*nonzero* bar offset the day/twilight/night comparison against that offset
applies; otherwise — no sunset, or a sunset at bar offset `0` — the
`visible` flag decides between day and night.  Stated over `slotPhase`,
the per-slot phase computation that `gen_bar_chars` applies with the
sunset offset it obtained from `offsetFromInstant`. -/
theorem C3_phase_classification (sunset_offset : Option ℕ) (visible : Bool) (slot_offset : ℕ) :
    slotPhase sunset_offset visible slot_offset =
      Except.ok (amendedPhaseSpec sunset_offset visible slot_offset) :=
  slotPhase_eq_amended sunset_offset visible slot_offset

/-- C8: the color emitted for a slot is the inverted dark-on-phase style
exactly when the slot carries a label character *and* has passed, and the
plain phase-colored style in every other combination; in particular the
`Couldn't choose a color` branch of the twelve-way chain and the
`Couldn't choose a phase` branch of the phase chain are both unreachable. -/
theorem C8_style_table :
    (∀ (phase : Phase) (text_char : Option Char) (has_passed : Bool),
      slotColor phase text_char has_passed =
        Except.ok (if text_char.isSome && has_passed then invertedStyle phase
                   else plainStyle phase))
  ∧ (∀ (sunset_offset : Option ℕ) (visible : Bool) (slot_offset : ℕ),
      ∃ phase, slotPhase sunset_offset visible slot_offset = Except.ok phase) := by
  constructor
  · intro phase tc hp
    cases phase <;> cases tc <;> cases hp <;> rfl
  · intro so v i
    exact ⟨amendedPhaseSpec so v i, slotPhase_eq_amended so v i⟩

/-! ### C7 — label placement -/

/-- C7: the label start offset equals `max(0, nowOffset − len + 1)`; a
label that fits left of "now" ends exactly at column `nowOffset`, one too
wide starts at column `0`; and slot `i` carries label character `i −
start` exactly when `start ≤ i < start + len`. -/
theorem C7_label_placement (dt_offset : ℕ) (t : List Char) (hL : 0 < t.length) :
    ((labelStart dt_offset t.length : ℤ) = max 0 ((dt_offset : ℤ) - t.length + 1))
  ∧ (t.length ≤ dt_offset + 1 →
      labelStart dt_offset t.length + t.length - 1 = dt_offset)
  ∧ (t.length > dt_offset + 1 → labelStart dt_offset t.length = 0)
  ∧ (∀ i : ℕ, slotTextChar (some (t, labelStart dt_offset t.length)) i =
      if labelStart dt_offset t.length ≤ i ∧
         i < labelStart dt_offset t.length + t.length
      then some (t.getD (i - labelStart dt_offset t.length) ' ')
      else none) := by
  refine ⟨?_, ?_, ?_, ?_⟩
  · by_cases h : dt_offset < t.length <;> simp [labelStart, h] <;> omega
  · intro hfits
    by_cases h : dt_offset < t.length <;> simp [labelStart, h] <;> omega
  · intro hwide
    have h : dt_offset < t.length := by omega
    simp [labelStart, h]
  · intro i
    simp only [slotTextChar]
    by_cases h : labelStart dt_offset t.length ≤ i ∧
        i < labelStart dt_offset t.length + t.length
    · rw [if_pos (by omega), if_pos h]
      congr 2
      omega
    · rw [if_neg (by omega), if_neg h]

/-- Witness for C7 at `nowOffset = 5` and the three-character label
`"abc"`. -/
theorem C7_label_placement_witness :
    (0 < ("abc".toList).length) ∧
    (((labelStart 5 ("abc".toList).length : ℤ) =
        max 0 ((5 : ℤ) - ("abc".toList).length + 1))
    ∧ (("abc".toList).length ≤ 5 + 1 →
        labelStart 5 ("abc".toList).length + ("abc".toList).length - 1 = 5)
    ∧ (("abc".toList).length > 5 + 1 → labelStart 5 ("abc".toList).length = 0)
    ∧ (∀ i : ℕ, slotTextChar (some ("abc".toList, labelStart 5 ("abc".toList).length)) i =
        if labelStart 5 ("abc".toList).length ≤ i ∧
           i < labelStart 5 ("abc".toList).length + ("abc".toList).length
        then some (("abc".toList).getD (i - labelStart 5 ("abc".toList).length) ' ')
        else none)) :=
  ⟨by decide, C7_label_placement 5 "abc".toList (by decide)⟩

/-! ### C6 — offset from percentage -/

/-- Counterexample to C6 as stated: for the 10-slot bar and `percent =
-10`, Python's `int()` truncates `-0.5` toward zero giving offset `0`,
whereas the claimed `floor(percent * (L/100) + 0.5)` is `-1`. -/
theorem C6_counterexample :
    bar_offset_from_bar_and_percent testBar10 (-10) = 0 ∧
    ⌊(-10 : ℚ) * ((testBar10.slots.length : ℚ) / 100) + 1 / 2⌋ = -1 ∧
    (0 : ℤ) ≠ -1 := by
  refine ⟨by with_unfolding_all decide, by with_unfolding_all decide, by decide⟩

/-- C6 as amended: for every bar with at least one slot and every
*non-negative* percent, `offsetFromPercent` equals
`floor(percent * (length/100) + 1/2)` — round-half-up of
`percent × charsPerPoint`.  (For negative arguments `int()` truncates
toward zero instead, see the counterexample.) -/
theorem C6_offset_from_percent (bar : Bar) (percent : ℚ)
    (hL : 1 ≤ bar.slots.length) (hp : 0 ≤ percent) :
    bar_offset_from_bar_and_percent bar percent =
      ⌊percent * ((bar.slots.length : ℚ) / 100) + 1 / 2⌋ := by
  have hn : (0 : ℚ) < (bar.slots.length : ℚ) := by exact_mod_cast hL
  simp only [bar_offset_from_bar_and_percent, pyInt]
  have hchars : percent / (100 * (1 / (bar.slots.length : ℚ))) =
      percent * ((bar.slots.length : ℚ) / 100) := by
    field_simp
  rw [hchars]
  have hpos : (0 : ℚ) ≤ percent * ((bar.slots.length : ℚ) / 100) + 1 / 2 := by
    have := mul_nonneg hp (le_of_lt (by positivity : (0 : ℚ) < (bar.slots.length : ℚ) / 100))
    linarith
  rw [if_pos hpos]

/-- Witness for C6 (amended) on the 100-slot bar at `percent = 33`, the
spec's own concrete scenario: the offset is `33`. -/
theorem C6_offset_from_percent_witness :
    (1 ≤ testBar100.slots.length) ∧ ((0 : ℚ) ≤ 33) ∧
    bar_offset_from_bar_and_percent testBar100 33 =
      ⌊(33 : ℚ) * ((testBar100.slots.length : ℚ) / 100) + 1 / 2⌋ ∧
    bar_offset_from_bar_and_percent testBar100 33 = 33 :=
  ⟨by with_unfolding_all decide, by with_unfolding_all decide,
   C6_offset_from_percent testBar100 33 (by with_unfolding_all decide)
     (by with_unfolding_all decide),
   by with_unfolding_all decide⟩

/-! ### C4 — scale marker search -/

/-- The search `scale_from_bar` in guarded form: its per-step function is the
legibility guard around the candidate scale. -/
lemma scale_eq_guard (bar : Bar) :
    scale_from_bar bar = scaleSteps.findSome? (fun step =>
      if legible bar step then some (candidate_scale bar step) else none) := by
  apply findSome?_congr_fn
  intro step _
  simp only [legible]
  by_cases h : (pySplit (candidate_scale bar step)).length = (scaleMarkers step).length
  · rw [if_pos h, if_pos (by simpa using h)]
  · rw [if_neg h, if_neg (by simpa using h)]

/-- C4: `scale(bar)` is the first candidate (steps `10, 20, 25, 33, 50`
scanned in that order) whose whitespace-split token count matches its
marker count, rendered via `candidate_scale` (markers `0, step, 2·step, …`
up to `100` at their `offsetFromPercent` columns), and it is absent
exactly when no candidate step is legible. -/
theorem C4_scale_search (bar : Bar) :
    scale_from_bar bar = (scaleSteps.find? (legible bar)).map (candidate_scale bar)
  ∧ (scale_from_bar bar = none ↔ ∀ step ∈ scaleSteps, legible bar step = false)
  ∧ (∀ s, scale_from_bar bar = some s →
      ∃ step ∈ scaleSteps, legible bar step = true ∧ s = candidate_scale bar step) := by
  have hg : scale_from_bar bar =
      (scaleSteps.find? (legible bar)).map (candidate_scale bar) := by
    rw [scale_eq_guard]
    exact findSome?_guard (legible bar) (candidate_scale bar) scaleSteps
  refine ⟨hg, ?_, ?_⟩
  · rw [hg, Option.map_eq_none', List.find?_eq_none]
    simp only [Bool.not_eq_true]
  · intro s hs
    rw [hg] at hs
    obtain ⟨step, hfind, hmap⟩ := Option.map_eq_some'.mp hs
    exact ⟨step, List.mem_of_find?_eq_some hfind, List.find?_some hfind, hmap.symm⟩

/-! ### C9 — scale string length -/

/-- Every marker of every candidate step is at most `100` and prints in at
most three digits. -/
lemma marker_facts : ∀ step ∈ scaleSteps, ∀ m ∈ scaleMarkers step,
    m ≤ 100 ∧ (Nat.repr m).length ≤ 3 := by decide

/-- For a marker value at most `100`, the computed column offset is at
most the bar length. -/
lemma offset_toNat_le (bar : Bar) (m : ℕ) (hL : 1 ≤ bar.slots.length) (hm : m ≤ 100) :
    (bar_offset_from_bar_and_percent bar (m : ℚ)).toNat ≤ bar.slots.length := by
  rw [Int.toNat_le]
  have hn : (0 : ℚ) < (bar.slots.length : ℚ) := by exact_mod_cast hL
  simp only [bar_offset_from_bar_and_percent, pyInt]
  have hchars : (m : ℚ) / (100 * (1 / (bar.slots.length : ℚ))) =
      (m : ℚ) * ((bar.slots.length : ℚ) / 100) := by
    field_simp
  rw [hchars]
  have hnonneg : (0 : ℚ) ≤ (m : ℚ) * ((bar.slots.length : ℚ) / 100) + 1 / 2 := by
    positivity
  rw [if_pos hnonneg]
  have hle : (m : ℚ) * ((bar.slots.length : ℚ) / 100) + 1 / 2
      ≤ (bar.slots.length : ℚ) + 1 / 2 := by
    have h1 : (m : ℚ) * ((bar.slots.length : ℚ) / 100)
        ≤ 100 * ((bar.slots.length : ℚ) / 100) := by
      apply mul_le_mul_of_nonneg_right _ (by positivity)
      exact_mod_cast hm
    have h2 : (100 : ℚ) * ((bar.slots.length : ℚ) / 100) = (bar.slots.length : ℚ) := by
      field_simp
    linarith
  calc ⌊(m : ℚ) * ((bar.slots.length : ℚ) / 100) + 1 / 2⌋
      ≤ ⌊(bar.slots.length : ℚ) + 1 / 2⌋ := Int.floor_le_floor hle
    _ = (bar.slots.length : ℤ) := by
        rw [show ((bar.slots.length : ℚ) + 1 / 2)
            = ((bar.slots.length : ℤ) : ℚ) + 1 / 2 by push_cast; ring]
        rw [Int.floor_int_add]
        norm_num

/-- Each candidate scale line is at most three characters longer than the
bar: every marker's row is its offset (≤ bar length) plus at most three
digits, and the collapsed line is as long as the longest row. -/
lemma candidate_scale_length_le (bar : Bar) (step : ℕ) (hstep : step ∈ scaleSteps)
    (hL : 1 ≤ bar.slots.length) :
    (candidate_scale bar step).length ≤ bar.slots.length + 3 := by
  show (collapseRows _).length ≤ _
  rw [collapseRows]
  rw [List.length_map, List.length_range]
  apply foldr_max_le
  intro x hx
  rw [List.map_map] at hx
  obtain ⟨m, hm, hx'⟩ := List.mem_map.mp hx
  rw [← hx']
  show ((markerRow (bar_offset_from_bar_and_percent bar (m : ℚ)).toNat m).length) ≤ _
  rw [markerRow, List.length_append, List.length_replicate, List.length_map]
  have hfacts := marker_facts step hstep m hm
  have h1 := offset_toNat_le bar m hL hfacts.1
  have h3 : (Nat.repr m).toList.length = (Nat.repr m).length := rfl
  omega

/-- Counterexample to C9 as stated: on the 10-slot bar the returned scale
is `"0  33  66 99"`, of length 12 — longer than the bar. -/
theorem C9_counterexample :
    scale_from_bar testBar10 = some ("0  33  66 99") ∧
    ("0  33  66 99" : String).length > testBar10.slots.length := by
  exact ⟨by with_unfolding_all decide, by with_unfolding_all decide⟩

/-- C9 as amended: whenever `scale(bar)` returns a string on a bar with at
least one slot, that string's length is at most the bar length *plus
three* (the last marker's digits may overhang the final column). -/
theorem C9_scale_length (bar : Bar) (s : String) (hL : 1 ≤ bar.slots.length)
    (hs : scale_from_bar bar = some s) :
    s.length ≤ bar.slots.length + 3 := by
  rw [scale_eq_guard, findSome?_guard] at hs
  obtain ⟨step, hfind, hcand⟩ := Option.map_eq_some'.mp hs
  rw [← hcand]
  exact candidate_scale_length_le bar step (List.mem_of_find?_eq_some hfind) hL

/-- Witness for C9 (amended) on the 10-slot bar: the returned scale has
length 12 ≤ 13. -/
theorem C9_scale_length_witness :
    (1 ≤ testBar10.slots.length) ∧ scale_from_bar testBar10 = some ("0  33  66 99") ∧
    ("0  33  66 99" : String).length ≤ testBar10.slots.length + 3 := by
  have h1 : 1 ≤ testBar10.slots.length := by with_unfolding_all decide
  have h2 : scale_from_bar testBar10 = some ("0  33  66 99") := by with_unfolding_all decide
  exact ⟨h1, h2, C9_scale_length testBar10 "0  33  66 99" h1 h2⟩

/-! ### C10 — empty label equals no label -/

/-- Bind over `Except` on a success. -/
lemma except_bind_ok {α β : Type} (a : α) (f : α → Except String β) :
    (Except.ok a >>= f) = f a := rfl

/-- Bind over `Except` on a failure. -/
lemma except_bind_error {α β : Type} (e : String) (f : α → Except String β) :
    ((Except.error e : Except String α) >>= f) = Except.error e := rfl

/-- The twelve-branch color chain as a table: inverted style exactly on
label-and-elapsed, plain phase style otherwise. -/
lemma slotColor_eq_table (phase : Phase) (tc : Option Char) (hp : Bool) :
    slotColor phase tc hp =
      Except.ok (if tc.isSome && hp then invertedStyle phase else plainStyle phase) := by
  cases phase <;> cases tc <;> cases hp <;> rfl

/-- No phase style — plain or inverted — is the reset token or a text
token. -/
lemma styleTok_ne (phase : Phase) (b : Bool) :
    (if b then invertedStyle phase else plainStyle phase) ≠ Tok.normal ∧
    ∀ c : Char, (if b then invertedStyle phase else plainStyle phase) ≠ Tok.text c := by
  cases phase <;> cases b <;>
    exact ⟨fun h => Tok.noConfusion h, fun c h => Tok.noConfusion h⟩

/-- C10: rendering with the empty string as label is identical to
rendering with no label (Python's `if time_label_text:` is false for
`""`), and a labelless render emits no label characters and no
`TERM.normal` reset tokens. -/
theorem C10_empty_label (bar : Bar) (dt_offset : ℕ) :
    render bar dt_offset (some ("")) = render bar dt_offset none ∧
    (∀ l, render bar dt_offset none = Except.ok l →
      Tok.normal ∉ l ∧ ∀ c : Char, Tok.text c ∉ l) := by
  constructor
  · rfl
  · intro l hl
    simp only [render, gen_bar_chars] at hl
    have key : ∀ tok ∈ l, tok ≠ Tok.normal ∧ ∀ c : Char, tok ≠ Tok.text c := by
      intro tok htok
      cases hso : sunsetOffsetE bar with
      | error e =>
        rw [hso, except_bind_error] at hl
        exact Except.noConfusion hl
      | ok so =>
        rw [hso, except_bind_ok] at hl
        cases hmm : (List.range bar.slots.length).mapM
            (slotBody so bar.cycle.visible none dt_offset) with
        | error e =>
          rw [hmm, except_bind_error] at hl
          exact Except.noConfusion hl
        | ok sls =>
          rw [hmm, except_bind_ok] at hl
          have hlf : sls.flatten = l := Except.ok.inj hl
          rw [← hlf] at htok
          obtain ⟨sl, hsl, htok'⟩ := List.mem_flatten.mp htok
          obtain ⟨i, _, hbody⟩ := mapM_ok_mem _ _ _ hmm sl hsl
          simp only [slotBody] at hbody
          cases hph : slotPhase so bar.cycle.visible i with
          | error e =>
            rw [hph, except_bind_error] at hbody
            exact Except.noConfusion hbody
          | ok phase =>
            rw [hph, except_bind_ok, slotColor_eq_table, except_bind_ok] at hbody
            have hsl' : slotToks
                (if (slotTextChar none i).isSome && decide (dt_offset ≥ i)
                 then invertedStyle phase else plainStyle phase)
                (slotTextChar none i) (decide (dt_offset ≥ i)) = sl :=
              Except.ok.inj hbody
            rw [← hsl'] at htok'
            simp only [slotTextChar, slotToks] at htok'
            rcases List.mem_cons.mp htok' with h | h
            · rw [h]
              exact styleTok_ne phase _
            · have h' : tok = (if decide (dt_offset ≥ i) = true
                  then Tok.charFull else Tok.charEmpty) := by
                simpa using h
              rw [h']
              by_cases hp : decide (dt_offset ≥ i) = true <;> simp [hp]
    exact ⟨fun hmem => (key _ hmem).1 rfl, fun c hmem => (key _ hmem).2 c rfl⟩

end LinearClock
